import Mathlib

/-!
Verification of the golden-layout content-item tree and docking engine.

This file gives a shallow embedding, in Lean, of the parts of the source that
the checked properties are about:

* the drop-zone hit-testing query of the layout manager
  (src/ts/layout-manager.ts, getArea / calculateItemAreas);
* the drag-session controller (DragProxy: onDrag, getXYWithinMinMax,
  highlightDropZoneForPosition, onDrop);
* the content-item tree mutations of Stack and GroundItem
  (src/ts/items/stack.ts, src/ts/items/ground-item.ts);
* the maximise / minimise state machine (Stack.maximise, Stack.minimise,
  LayoutManager.setMaximisedStack);
* responsive column collapsing (LayoutManager.adjustColumnsResponsive,
  findAllStacksRecursive, addChildContentItemsToContainer).

Pixel coordinates and size shares are modelled as rationals; the fractional
constants appearing in the source (0.25, 0.5, 0.75) are exactly representable
in binary floating point, so the rational model is faithful to the float
arithmetic actually performed.  Code that throws is modelled with Except.
Definitions translate the TypeScript source; the few operations whose
defining file is not part of the source snapshot (content-item.ts) are
modelled from the specification and carry a doc comment saying so.
-/

namespace GoldenLayout

/-- An axis-aligned rectangle, addressed by its left/top and right/bottom
edges, as in the source type AreaLinkedRect (x1,y1 top-left, x2,y2
bottom-right). -/
structure Rect where
  x1 : ℚ
  y1 : ℚ
  x2 : ℚ
  y2 : ℚ
deriving DecidableEq, Repr

/-- Strict containment of a point in a rectangle, exactly the comparison
chain of LayoutManager.getArea: x > x1 and x < x2 and y > y1 and y < y2.
A point on the boundary is not contained. -/
def Rect.containsPoint (r : Rect) (x y : ℚ) : Prop :=
  r.x1 < x ∧ x < r.x2 ∧ r.y1 < y ∧ y < r.y2

instance (r : Rect) (x y : ℚ) : Decidable (r.containsPoint x y) :=
  inferInstanceAs (Decidable (_ ∧ _ ∧ _ ∧ _))

/-- ContentItem.Area as consumed by LayoutManager.getArea: a rectangle
plus its precomputed surface.  The source Area also carries a reference to
the owning ContentItem; here that reference is represented by the depth of
the owning node in the content-item tree ("itemDepth"), which is the only
attribute of the owner that claim C3 talks about.  getArea itself never
reads it. -/
structure Area where
  x1 : ℚ
  y1 : ℚ
  x2 : ℚ
  y2 : ℚ
  surface : ℚ
  itemDepth : ℕ
deriving DecidableEq, Repr

/-- Point containment test of getArea for an Area. -/
def Area.containsPoint (a : Area) (x y : ℚ) : Prop :=
  a.x1 < x ∧ x < a.x2 ∧ a.y1 < y ∧ y < a.y2

instance (a : Area) (x y : ℚ) : Decidable (a.containsPoint x y) :=
  inferInstanceAs (Decidable (_ ∧ _ ∧ _ ∧ _))

/-- The running "smallestSurface" variable of getArea.  It starts at
Infinity, which the rational model renders as Option.none; the code's
comparison smallestSurface > area.surface is surfaceBelow. -/
def surfaceBelow (smallest : Option ℚ) (s : ℚ) : Prop :=
  match smallest with
  | Option.none => True
  | Option.some m => s < m

instance (smallest : Option ℚ) (s : ℚ) : Decidable (surfaceBelow smallest s) :=
  match smallest with
  | Option.none => isTrue trivial
  | Option.some m => inferInstanceAs (Decidable (s < m))

/-- The loop of LayoutManager.getArea (src/ts/layout-manager.ts:1310):
iterate over the item areas, keeping the first area that strictly contains
the point and has a strictly smaller surface than anything accepted so
far. -/
def getAreaLoop (x y : ℚ) : List Area → Option ℚ → Option Area → Option Area
  | [], _, matchingArea => matchingArea
  | area :: rest, smallestSurface, matchingArea =>
    if area.containsPoint x y ∧ surfaceBelow smallestSurface area.surface then
      getAreaLoop x y rest (Option.some area.surface) (Option.some area)
    else
      getAreaLoop x y rest smallestSurface matchingArea

/-- LayoutManager.getArea: the drop-zone lookup for a pointer position.
Returns null (none) when no area strictly contains the point. -/
def getArea (itemAreas : List Area) (x y : ℚ) : Option Area :=
  getAreaLoop x y itemAreas Option.none Option.none

theorem getAreaLoop_of_no_match (x y : ℚ) :
    ∀ (areas : List Area) (smallest : Option ℚ) (best : Option Area),
      (∀ a ∈ areas, ¬ a.containsPoint x y) →
      getAreaLoop x y areas smallest best = best := by
  intro areas
  induction areas with
  | nil => intro smallest best _; rfl
  | cons a rest ih =>
    intro smallest best h
    have ha : ¬ a.containsPoint x y := h a (List.mem_cons_self a rest)
    have hrest : ∀ b ∈ rest, ¬ b.containsPoint x y :=
      fun b hb => h b (List.mem_cons_of_mem a hb)
    unfold getAreaLoop
    rw [if_neg (fun hc => ha hc.1)]
    exact ih smallest best hrest

/-- C9: for a pointer position that no drop zone area strictly contains
(containment is by strict inequalities, so boundary points are not
contained), LayoutManager.getArea returns the absent value null rather
than throwing, so callers can fall back. -/
theorem getArea_none_of_no_containing (itemAreas : List Area) (x y : ℚ)
    (h : ∀ a ∈ itemAreas, ¬ a.containsPoint x y) :
    getArea itemAreas x y = Option.none :=
  getAreaLoop_of_no_match x y itemAreas Option.none Option.none h

/-- Witness for C9: a concrete area list and a pointer position exactly on
the left boundary of the only area; the position is contained in no area
and the lookup returns none. -/
theorem getArea_none_of_no_containing_witness :
    (∀ a ∈ [(⟨0, 0, 10, 10, 100, 1⟩ : Area)], ¬ a.containsPoint 0 5) ∧
      getArea [(⟨0, 0, 10, 10, 100, 1⟩ : Area)] 0 5 = Option.none :=
  ⟨by decide, getArea_none_of_no_containing _ 0 5 (by decide)⟩

theorem getAreaLoop_spec (x y : ℚ) :
    ∀ (areas : List Area) (smallest : Option ℚ) (best : Option Area) (a : Area),
      (∀ b, best = Option.some b → smallest = Option.some b.surface) →
      getAreaLoop x y areas smallest best = Option.some a →
      (∀ s, smallest = Option.some s → a.surface ≤ s) ∧
        (∀ b ∈ areas, b.containsPoint x y → a.surface ≤ b.surface) ∧
        (best = Option.some a ∨ (a ∈ areas ∧ a.containsPoint x y)) := by
  intro areas
  induction areas with
  | nil =>
    intro smallest best a hlink hrun
    refine ⟨?_, ?_, ?_⟩
    · intro s hs
      have heq : best = Option.some a := hrun
      have := hlink a heq
      rw [this] at hs
      exact le_of_eq (Option.some.inj hs)
    · intro b hb
      exact absurd hb (List.not_mem_nil b)
    · exact Or.inl hrun
  | cons c rest ih =>
    intro smallest best a hlink hrun
    unfold getAreaLoop at hrun
    by_cases hcond : c.containsPoint x y ∧ surfaceBelow smallest c.surface
    · rw [if_pos hcond] at hrun
      have hlink2 : ∀ b, Option.some c = Option.some b →
          Option.some c.surface = Option.some b.surface := by
        intro b hb
        rw [← Option.some.inj hb]
      obtain ⟨h1, h2, h3⟩ := ih (Option.some c.surface) (Option.some c) a hlink2 hrun
      have hac : a.surface ≤ c.surface := h1 c.surface rfl
      refine ⟨?_, ?_, ?_⟩
      · intro s hs
        have hcs : c.surface < s := by
          have := hcond.2
          rw [hs] at this
          exact this
        exact le_of_lt (lt_of_le_of_lt hac hcs)
      · intro b hb hcont
        rcases List.mem_cons.mp hb with hbc | hbr
        · rw [hbc]; exact hac
        · exact h2 b hbr hcont
      · rcases h3 with hba | ⟨hmem, hcont⟩
        · exact Or.inr ⟨by rw [← Option.some.inj hba]; exact List.mem_cons_self c rest,
            by rw [← Option.some.inj hba]; exact hcond.1⟩
        · exact Or.inr ⟨List.mem_cons_of_mem c hmem, hcont⟩
    · rw [if_neg hcond] at hrun
      obtain ⟨h1, h2, h3⟩ := ih smallest best a hlink hrun
      refine ⟨h1, ?_, ?_⟩
      · intro b hb hcont
        rcases List.mem_cons.mp hb with hbc | hbr
        · subst hbc
          have hnb : ¬ surfaceBelow smallest b.surface := fun hsb => hcond ⟨hcont, hsb⟩
          cases smallest with
          | none => exact absurd trivial hnb
          | some m =>
            have hmb : m ≤ b.surface := not_lt.mp hnb
            exact le_trans (h1 m rfl) hmb
        · exact h2 b hbr hcont
      · rcases h3 with hba | ⟨hmem, hcont⟩
        · exact Or.inl hba
        · exact Or.inr ⟨List.mem_cons_of_mem c hmem, hcont⟩

/-- Amended C3: the zone-selection query LayoutManager.getArea returns,
among the areas strictly containing the pointer, one of minimal surface
(the first such in iteration order); the depth of the owning node is never
consulted. -/
theorem getArea_minimal_surface (itemAreas : List Area) (x y : ℚ) (a : Area)
    (h : getArea itemAreas x y = Option.some a) :
    a ∈ itemAreas ∧ a.containsPoint x y ∧
      ∀ b ∈ itemAreas, b.containsPoint x y → a.surface ≤ b.surface := by
  obtain ⟨_, h2, h3⟩ :=
    getAreaLoop_spec x y itemAreas Option.none Option.none a
      (fun b hb => absurd hb (Option.noConfusion)) h
  rcases h3 with hba | ⟨hmem, hcont⟩
  · exact absurd hba (Option.noConfusion)
  · exact ⟨hmem, hcont, h2⟩

/-- Witness for the amended C3 theorem: two overlapping concrete areas;
the query returns the one of smaller surface. -/
theorem getArea_minimal_surface_witness :
    (⟨40, 40, 60, 60, 400, 0⟩ : Area) ∈
        [(⟨0, 0, 100, 100, 10000, 3⟩ : Area), ⟨40, 40, 60, 60, 400, 0⟩] ∧
      (⟨40, 40, 60, 60, 400, 0⟩ : Area).containsPoint 50 50 ∧
      ∀ b ∈ [(⟨0, 0, 100, 100, 10000, 3⟩ : Area), ⟨40, 40, 60, 60, 400, 0⟩],
        b.containsPoint 50 50 →
          (⟨40, 40, 60, 60, 400, 0⟩ : Area).surface ≤ b.surface :=
  getArea_minimal_surface
    [⟨0, 0, 100, 100, 10000, 3⟩, ⟨40, 40, 60, 60, 400, 0⟩] 50 50
    ⟨40, 40, 60, 60, 400, 0⟩ (by decide)

/-- Counterexample to C3 as stated: a pointer position contained in the
hover areas of two zones, the first belonging to a deeply nested node
(depth 3) with a large surface, the second to a shallow node (depth 0)
with a small surface.  getArea returns the shallow node's zone: the depth
of the owning node does not take precedence; only the surface is
compared. -/
theorem getArea_depth_counterexample :
    (⟨0, 0, 100, 100, 10000, 3⟩ : Area).containsPoint 50 50 ∧
      (⟨40, 40, 60, 60, 400, 0⟩ : Area).containsPoint 50 50 ∧
      (⟨40, 40, 60, 60, 400, 0⟩ : Area).itemDepth <
        (⟨0, 0, 100, 100, 10000, 3⟩ : Area).itemDepth ∧
      getArea [(⟨0, 0, 100, 100, 10000, 3⟩ : Area), ⟨40, 40, 60, 60, 400, 0⟩] 50 50 =
        Option.some ⟨40, 40, 60, 60, 400, 0⟩ := by
  decide

/-- A drop zone as seen by the drag session controller (utils/types
DropZone): a hover rectangle for pointer containment, a highlight
rectangle for visual feedback, and an identifier standing in for the
onDrop commit action / owning content item.  hoverSurface is the surface
of the hover rectangle, used by the selection query. -/
structure DropZone where
  zoneId : ℕ
  hoverArea : Rect
  highlightArea : Rect
  hoverSurface : ℚ
deriving DecidableEq, Repr

/-- Loop of the drop-zone selection query, same shape as getAreaLoop. -/
def getSelectedDropZoneLoop (x y : ℚ) :
    List DropZone → Option ℚ → Option DropZone → Option DropZone
  | [], _, best => best
  | zone :: rest, smallest, best =>
    if zone.hoverArea.containsPoint x y ∧ surfaceBelow smallest zone.hoverSurface then
      getSelectedDropZoneLoop x y rest (Option.some zone.hoverSurface) (Option.some zone)
    else
      getSelectedDropZoneLoop x y rest smallest best

/-- Modelled from the spec: LayoutManager.getSelectedDropZoneForPointerPosition,
called by DragProxy.highlightDropZoneForPosition, is not in the source
snapshot (only the Area-based LayoutManager.getArea it replaces is).
Following spec section 4.2 (among the zones whose hover rectangles contain
the pointer, smallest bounding surface wins) and section 7 (a position
matching no zone yields an absent value), and the shape of getArea, it
returns the zone whose hover rectangle strictly contains the position,
smallest hover surface first, or none when no zone matches. -/
def getSelectedDropZoneForPointerPosition (dropZones : List DropZone) (x y : ℚ) :
    Option DropZone :=
  getSelectedDropZoneLoop x y dropZones Option.none Option.none

/-- The drag-session state owned by DragProxy that the pointer-move
handlers mutate: the currently selected drop zone and the proxy element's
left/top position. -/
structure DragProxyState where
  selectedDropZone : Option DropZone
  proxyLeft : ℚ
  proxyTop : ℚ
deriving DecidableEq, Repr

/-- DragProxy.updateDragProxyPosition: move the proxy element. -/
def updateDragProxyPosition (s : DragProxyState) (x y : ℚ) : DragProxyState :=
  { s with proxyLeft := x, proxyTop := y }

/-- DragProxy.highlightDropZoneForPosition: if the lookup returns null
(the position is in no drop zone), keep the last valid drop zone;
otherwise select the returned zone (and render its highlight area). -/
def highlightDropZoneForPosition (dropZones : List DropZone) (s : DragProxyState)
    (x y : ℚ) : DragProxyState :=
  match getSelectedDropZoneForPointerPosition dropZones x y with
  | Option.some zone => { s with selectedDropZone := Option.some zone }
  | Option.none => s

/-- DragProxy.respondToDraggedPosition: reposition the proxy, then update
the drop-zone selection. -/
def respondToDraggedPosition (dropZones : List DropZone) (s : DragProxyState)
    (x y : ℚ) : DragProxyState :=
  highlightDropZoneForPosition dropZones (updateDragProxyPosition s x y) x y

theorem getSelectedDropZoneLoop_of_no_match (x y : ℚ) :
    ∀ (zones : List DropZone) (smallest : Option ℚ) (best : Option DropZone),
      (∀ z ∈ zones, ¬ z.hoverArea.containsPoint x y) →
      getSelectedDropZoneLoop x y zones smallest best = best := by
  intro zones
  induction zones with
  | nil => intro smallest best _; rfl
  | cons z rest ih =>
    intro smallest best h
    have hz : ¬ z.hoverArea.containsPoint x y := h z (List.mem_cons_self z rest)
    have hrest : ∀ w ∈ rest, ¬ w.hoverArea.containsPoint x y :=
      fun w hw => h w (List.mem_cons_of_mem z hw)
    unfold getSelectedDropZoneLoop
    rw [if_neg (fun hc => hz hc.1)]
    exact ih smallest best hrest

theorem getSelectedDropZoneLoop_mem (x y : ℚ) :
    ∀ (zones : List DropZone) (smallest : Option ℚ) (best : Option DropZone)
      (z : DropZone),
      getSelectedDropZoneLoop x y zones smallest best = Option.some z →
      best = Option.some z ∨ (z ∈ zones ∧ z.hoverArea.containsPoint x y) := by
  intro zones
  induction zones with
  | nil => intro smallest best z h; exact Or.inl h
  | cons c rest ih =>
    intro smallest best z h
    unfold getSelectedDropZoneLoop at h
    by_cases hcond : c.hoverArea.containsPoint x y ∧ surfaceBelow smallest c.hoverSurface
    · rw [if_pos hcond] at h
      rcases ih (Option.some c.hoverSurface) (Option.some c) z h with hb | ⟨hmem, hcont⟩
      · exact Or.inr ⟨by rw [← Option.some.inj hb]; exact List.mem_cons_self c rest,
          by rw [← Option.some.inj hb]; exact hcond.1⟩
      · exact Or.inr ⟨List.mem_cons_of_mem c hmem, hcont⟩
    · rw [if_neg hcond] at h
      rcases ih smallest best z h with hb | ⟨hmem, hcont⟩
      · exact Or.inl hb
      · exact Or.inr ⟨List.mem_cons_of_mem c hmem, hcont⟩

/-- C4: during a drag, a pointer move whose position is in no drop zone's
hover rectangle leaves the selected drop zone unchanged (sticky
selection), and the selection only changes when some zone's hover
rectangle contains the new position (and then it becomes that zone). -/
theorem drag_selected_zone_sticky (dropZones : List DropZone) (s : DragProxyState)
    (x y : ℚ) :
    ((∀ z ∈ dropZones, ¬ z.hoverArea.containsPoint x y) →
        (respondToDraggedPosition dropZones s x y).selectedDropZone =
          s.selectedDropZone) ∧
      ((respondToDraggedPosition dropZones s x y).selectedDropZone ≠
          s.selectedDropZone →
        ∃ z ∈ dropZones, z.hoverArea.containsPoint x y ∧
          (respondToDraggedPosition dropZones s x y).selectedDropZone =
            Option.some z) := by
  constructor
  · intro h
    unfold respondToDraggedPosition highlightDropZoneForPosition
    unfold getSelectedDropZoneForPointerPosition
    rw [getSelectedDropZoneLoop_of_no_match x y dropZones Option.none Option.none h]
    rfl
  · intro hne
    unfold respondToDraggedPosition highlightDropZoneForPosition at hne ⊢
    cases hrun : getSelectedDropZoneForPointerPosition dropZones x y with
    | none =>
      rw [hrun] at hne
      exact absurd rfl hne
    | some z =>
      rcases getSelectedDropZoneLoop_mem x y dropZones Option.none Option.none z hrun
        with hb | ⟨hmem, hcont⟩
      · exact absurd hb (Option.noConfusion)
      · exact ⟨z, hmem, hcont, rfl⟩

/-- Witness for C4: a concrete zone set and a pointer position outside
every hover rectangle; the previously selected zone stays selected. -/
theorem drag_selected_zone_sticky_witness :
    (∀ z ∈ [(⟨7, ⟨0, 0, 10, 10⟩, ⟨0, 0, 10, 10⟩, 100⟩ : DropZone)],
        ¬ z.hoverArea.containsPoint 50 50) ∧
      (respondToDraggedPosition [(⟨7, ⟨0, 0, 10, 10⟩, ⟨0, 0, 10, 10⟩, 100⟩ : DropZone)]
          ⟨Option.some ⟨7, ⟨0, 0, 10, 10⟩, ⟨0, 0, 10, 10⟩, 100⟩, 1, 1⟩
          50 50).selectedDropZone =
        (⟨Option.some ⟨7, ⟨0, 0, 10, 10⟩, ⟨0, 0, 10, 10⟩, 100⟩, 1, 1⟩ :
            DragProxyState).selectedDropZone :=
  ⟨by decide,
    (drag_selected_zone_sticky [⟨7, ⟨0, 0, 10, 10⟩, ⟨0, 0, 10, 10⟩, 100⟩]
        ⟨Option.some ⟨7, ⟨0, 0, 10, 10⟩, ⟨0, 0, 10, 10⟩, 100⟩, 1, 1⟩ 50 50).1
      (by decide)⟩

/-- The draggable bounds of a drag session, computed once by
DragProxy.determineMinMaxXY in the constructor. -/
structure DragBounds where
  minX : ℚ
  minY : ℚ
  maxX : ℚ
  maxY : ℚ
deriving DecidableEq, Repr

/-- DragProxy.determineMinMaxXY: bounds from the container's body offset
and its width and height. -/
def determineMinMaxXY (offsetLeft offsetTop containerWidth containerHeight : ℚ) :
    DragBounds :=
  { minX := offsetLeft
    minY := offsetTop
    maxX := containerWidth + offsetLeft
    maxY := containerHeight + offsetTop }

/-- DragProxy.getXYWithinMinMax: clamp a position into the bounds, with
Math.ceil on the low side and Math.floor on the high side. -/
def getXYWithinMinMax (b : DragBounds) (x y : ℚ) : ℚ × ℚ :=
  let cx : ℚ :=
    if x ≤ b.minX then ((⌈b.minX + 1⌉ : ℤ) : ℚ)
    else if b.maxX ≤ x then ((⌊b.maxX - 1⌋ : ℤ) : ℚ)
    else x
  let cy : ℚ :=
    if y ≤ b.minY then ((⌈b.minY + 1⌉ : ℤ) : ℚ)
    else if b.maxY ≤ y then ((⌊b.maxY - 1⌋ : ℤ) : ℚ)
    else y
  (cx, cy)

/-- The position handling of the DragProxy constructor: when
constrainDragToContainer is configured, the initial x/y are replaced by
their clamped values before the first respondToDraggedPosition. -/
def constructorInitialXY (constrainDragToContainer : Bool) (b : DragBounds)
    (x y : ℚ) : ℚ × ℚ :=
  if constrainDragToContainer then getXYWithinMinMax b x y else (x, y)

/-- DragProxy.onDrag: without the constrain setting, every move is
responded to at its raw position; with it, the move is responded to (at
the raw position) only when strictly within the bounds, and otherwise
ignored. -/
def onDrag (constrainDragToContainer : Bool) (b : DragBounds)
    (dropZones : List DropZone) (s : DragProxyState) (x y : ℚ) : DragProxyState :=
  if constrainDragToContainer = false then
    respondToDraggedPosition dropZones s x y
  else if b.minX < x ∧ x < b.maxX ∧ b.minY < y ∧ y < b.maxY then
    respondToDraggedPosition dropZones s x y
  else
    s

/-- Counterexample to C8 as stated: with constrain-to-container on and
bounds 0..100 x 0..100, the pointer position (150, 50) would clamp to
(99, 50), and using the clamped position would move the proxy to left 99;
the code instead ignores the move entirely, leaving the proxy where it
was.  Subsequent positions are filtered, not clamped. -/
theorem onDrag_clamp_counterexample :
    onDrag true (determineMinMaxXY 0 0 100 100) []
        ⟨Option.none, 0, 0⟩ 150 50 = ⟨Option.none, 0, 0⟩ ∧
      getXYWithinMinMax (determineMinMaxXY 0 0 100 100) 150 50 = (99, 50) ∧
      (respondToDraggedPosition [] ⟨Option.none, 0, 0⟩ 99 50).proxyLeft = 99 ∧
      (onDrag true (determineMinMaxXY 0 0 100 100) []
          ⟨Option.none, 0, 0⟩ 150 50).proxyLeft ≠ 99 := by
  have hout : ¬ ((determineMinMaxXY 0 0 100 100).minX < 150 ∧
      (150 : ℚ) < (determineMinMaxXY 0 0 100 100).maxX ∧
      (determineMinMaxXY 0 0 100 100).minY < 50 ∧
      (50 : ℚ) < (determineMinMaxXY 0 0 100 100).maxY) := by
    unfold determineMinMaxXY
    norm_num
  have hdrag : onDrag true (determineMinMaxXY 0 0 100 100) []
      ⟨Option.none, 0, 0⟩ 150 50 = ⟨Option.none, 0, 0⟩ := by
    unfold onDrag
    rw [if_neg (by decide : ¬ (true = false)), if_neg hout]
  refine ⟨hdrag, ?_, rfl, ?_⟩
  · unfold getXYWithinMinMax determineMinMaxXY
    norm_num
  · rw [hdrag]
    norm_num

/-- Amended C8: the draggable bounds are computed once at drag start from
the container's bounding box and the initial position is clamped to them
when constrain-to-container is configured; each subsequent pointer
position is used unmodified when strictly inside the bounds, and a move
outside the bounds is ignored (proxy position and zone selection are left
unchanged), rather than clamped. -/
theorem onDrag_constrained_filtering (b : DragBounds) (dropZones : List DropZone)
    (s : DragProxyState) (x y : ℚ) :
    constructorInitialXY true b x y = getXYWithinMinMax b x y ∧
      ((b.minX < x ∧ x < b.maxX ∧ b.minY < y ∧ y < b.maxY) →
        onDrag true b dropZones s x y = respondToDraggedPosition dropZones s x y) ∧
      (¬ (b.minX < x ∧ x < b.maxX ∧ b.minY < y ∧ y < b.maxY) →
        onDrag true b dropZones s x y = s) := by
  refine ⟨rfl, ?_, ?_⟩
  · intro h
    unfold onDrag
    rw [if_neg (by decide : ¬ (true = false)), if_pos h]
  · intro h
    unfold onDrag
    rw [if_neg (by decide : ¬ (true = false)), if_neg h]

/-- Witness for the amended C8 theorem at a concrete in-bounds move and a
concrete out-of-bounds move. -/
theorem onDrag_constrained_filtering_witness :
    ((0 : ℚ) < 5 ∧ (5 : ℚ) < 100 ∧ (0 : ℚ) < 7 ∧ (7 : ℚ) < 100) ∧
      onDrag true ⟨0, 0, 100, 100⟩ [] ⟨Option.none, 0, 0⟩ 5 7 =
        respondToDraggedPosition [] ⟨Option.none, 0, 0⟩ 5 7 ∧
      onDrag true ⟨0, 0, 100, 100⟩ [] ⟨Option.none, 0, 0⟩ 150 7 =
        ⟨Option.none, 0, 0⟩ :=
  ⟨by decide,
    (onDrag_constrained_filtering ⟨0, 0, 100, 100⟩ [] ⟨Option.none, 0, 0⟩ 5 7).2.1
      (by decide),
    (onDrag_constrained_filtering ⟨0, 0, 100, 100⟩ [] ⟨Option.none, 0, 0⟩ 150 7).2.2
      (by decide)⟩

/-- A content item of the layout tree.  The node kinds of the source
(ground excepted, which is modelled separately since it is not a child of
anything): component leaves, stacks (whose active child is identified by
component id, standing in for the object reference
Stack._activeComponentItem), rows and columns.  width and height are the
proportional size shares of the node. -/
inductive Item where
  | component (id : ℕ) (width height : ℚ)
  | stack (children : List Item) (activeId : Option ℕ) (width height : ℚ)
  | row (children : List Item) (width height : ℚ)
  | column (children : List Item) (width height : ℚ)

/-- ContentItem.isComponent. -/
def Item.isComponent : Item → Bool
  | Item.component _ _ _ => true
  | _ => false

/-- The component id of a component leaf (stands in for the object
reference to a ComponentItem). -/
def Item.componentId? : Item → Option ℕ
  | Item.component i _ _ => Option.some i
  | _ => Option.none

/-- ContentItem.isRow. -/
def Item.isRow : Item → Bool
  | Item.row _ _ _ => true
  | _ => false

/-- ContentItem.contentItems. -/
def Item.childrenOf : Item → List Item
  | Item.component _ _ _ => []
  | Item.stack cs _ _ _ => cs
  | Item.row cs _ _ => cs
  | Item.column cs _ _ => cs

/-- Replace a node's child list, keeping its kind and size shares. -/
def Item.withChildren : Item → List Item → Item
  | Item.component i w h, _ => Item.component i w h
  | Item.stack _ a w h, cs => Item.stack cs a w h
  | Item.row _ w h, cs => Item.row cs w h
  | Item.column _ w h, cs => Item.column cs w h

/-- The internal errors thrown by the tree operations: AssertError with its
code, or a plain Error with its message. -/
inductive LayoutError where
  | assertError (code : String)
  | internalError (msg : String)
deriving DecidableEq, Repr

/-- Modelled from the spec: ContentItem.addChild (content-item.ts is not in
the source snapshot).  Spec section 4.1: addChild(item, index?) inserts at
index, default = end.  An index beyond the end behaves like the splice it
stands for and appends.  Returns the new child list and the index used. -/
def contentItemAddChild (children : List Item) (item : Item) (index : Option ℕ) :
    List Item × ℕ :=
  let i := min (index.getD children.length) children.length
  (children.insertIdx i item, i)

/-- The index guard of Stack.addChild: index !== undefined and
index > contentItems.length. -/
def indexTooLarge (len : ℕ) : Option ℕ → Bool
  | Option.some i => len < i
  | Option.none => false

/-- The mutable state of a Stack node: its ordered component children and
the id of its active component item. -/
structure StackState where
  children : List Item
  activeId : Option ℕ

/-- Stack.addChild (stack.ts:280): guard the index (AssertError SAC99728),
reject a non-Component child (AssertError SACC88532), both before any tree
modification, then insert through the base class and make the added item
the active component item. -/
def StackState.addChild (s : StackState) (contentItem : Item) (index : Option ℕ) :
    Except LayoutError (StackState × ℕ) :=
  if indexTooLarge s.children.length index then
    Except.error (LayoutError.assertError "SAC99728")
  else if contentItem.isComponent = false then
    Except.error (LayoutError.assertError "SACC88532")
  else
    let p := contentItemAddChild s.children contentItem index
    Except.ok ({ children := p.1, activeId := contentItem.componentId? }, p.2)

/-- The mutable state of the GroundItem: its (at most one) children. -/
structure GroundState where
  children : List Item

/-- GroundItem.addChild (ground-item.ts:146): a Ground that already has a
child refuses another one, before any tree modification. -/
def GroundState.addChild (g : GroundState) (contentItem : Item) (index : Option ℕ) :
    Except LayoutError (GroundState × ℕ) :=
  if 0 < g.children.length then
    Except.error (LayoutError.internalError "Ground node can only have a single child")
  else
    let p := contentItemAddChild g.children contentItem index
    Except.ok (⟨p.1⟩, p.2)

/-- C2: Stack.addChild rejects a non-Component child with the
distinguishable internal error SACC88532 and GroundItem.addChild rejects a
second child, both before any tree modification (on error no mutated
state exists); and any successful addition preserves the invariants that a
Stack holds only Component children and a Ground holds at most one
child. -/
theorem addChild_structural_guards (s : StackState) (g : GroundState)
    (item : Item) (index : Option ℕ) :
    (item.isComponent = false → indexTooLarge s.children.length index = false →
        s.addChild item index = Except.error (LayoutError.assertError "SACC88532")) ∧
      (∀ s2 i, s.addChild item index = Except.ok (s2, i) →
        item.isComponent = true ∧
          ((∀ c ∈ s.children, c.isComponent = true) →
            ∀ c ∈ s2.children, c.isComponent = true)) ∧
      (g.children ≠ [] →
        g.addChild item index =
          Except.error (LayoutError.internalError "Ground node can only have a single child")) ∧
      (∀ g2 i, g.addChild item index = Except.ok (g2, i) →
        g.children = [] ∧ g2.children.length = 1) := by
  refine ⟨?_, ?_, ?_, ?_⟩
  · intro hcomp hidx
    unfold StackState.addChild
    rw [hidx]
    rw [if_neg (by exact Bool.false_ne_true), if_pos hcomp]
  · intro s2 i hok
    unfold StackState.addChild at hok
    by_cases hidx : indexTooLarge s.children.length index = true
    · rw [if_pos hidx] at hok
      exact absurd hok (by intro hfalse; exact Except.noConfusion hfalse)
    · rw [if_neg hidx] at hok
      by_cases hcomp : item.isComponent = false
      · rw [if_pos hcomp] at hok
        exact absurd hok (by intro hfalse; exact Except.noConfusion hfalse)
      · rw [if_neg hcomp] at hok
        refine ⟨Bool.not_eq_false item.isComponent ▸ hcomp, ?_⟩
        intro hall c hc
        have hs2 : s2.children = s.children.insertIdx
            (min (index.getD s.children.length) s.children.length) item := by
          have := congrArg (fun r => match r with
            | Except.ok (st, _) => st.children
            | Except.error _ => []) hok
          simpa [contentItemAddChild] using this.symm
        rw [hs2] at hc
        have hle : min (index.getD s.children.length) s.children.length ≤
            s.children.length := min_le_right _ _
        rcases (List.mem_insertIdx hle).mp hc with hci | hcm
        · rw [hci]; exact Bool.not_eq_false item.isComponent ▸ hcomp
        · exact hall c hcm
  · intro hne
    unfold GroundState.addChild
    rw [if_pos (List.length_pos.mpr hne)]
  · intro g2 i hok
    unfold GroundState.addChild at hok
    by_cases hempty : 0 < g.children.length
    · rw [if_pos hempty] at hok
      exact absurd hok (by intro hfalse; exact Except.noConfusion hfalse)
    · rw [if_neg hempty] at hok
      have hnil : g.children = [] := List.length_eq_zero.mp (Nat.eq_zero_of_not_pos hempty)
      have hg2 : g2.children = g.children.insertIdx
          (min (index.getD g.children.length) g.children.length) item := by
        have := congrArg (fun r => match r with
          | Except.ok (gr, _) => gr.children
          | Except.error _ => []) hok
        simpa [contentItemAddChild] using this.symm
      refine ⟨hnil, ?_⟩
      rw [hg2, hnil]
      have hmin : min ((index.getD ([] : List Item).length)) ([] : List Item).length = 0 :=
        Nat.eq_zero_of_le_zero (min_le_right _ _)
      rw [hmin]
      rfl

/-- Witness for C2: adding a Row to a Stack fails with SACC88532; adding a
second child to a non-empty Ground fails with the Ground arity error. -/
theorem addChild_structural_guards_witness :
    ((Item.row [] 50 50).isComponent = false ∧
        (StackState.addChild ⟨[], Option.none⟩ (Item.row [] 50 50) Option.none =
          Except.error (LayoutError.assertError "SACC88532"))) ∧
      ((⟨[Item.component 1 50 50]⟩ : GroundState).children ≠ [] ∧
        GroundState.addChild ⟨[Item.component 1 50 50]⟩ (Item.component 2 50 50)
            Option.none =
          Except.error (LayoutError.internalError "Ground node can only have a single child")) :=
  ⟨⟨rfl,
      (addChild_structural_guards ⟨[], Option.none⟩ ⟨[]⟩ (Item.row [] 50 50)
          Option.none).1 rfl rfl⟩,
    ⟨List.cons_ne_nil _ _,
      (addChild_structural_guards ⟨[], Option.none⟩ ⟨[Item.component 1 50 50]⟩
          (Item.component 2 50 50) Option.none).2.2.1 (List.cons_ne_nil _ _)⟩⟩

/-- Stack.removeChild (stack.ts:300): find the removed item's index; when
the removed item is the active one and the stack is not about to be
deleted (more than one child), choose the new active component at
pre-removal positions: the child at index 1 when the removed item was at
index 0, else the child just before it; then remove through the base
class (ContentItem.removeChild, modelled from the spec: removes the item
from the child list).  Blur, tab removal and closability updates are
presentation-side and carry no tree state. -/
def StackState.removeChild (s : StackState) (targetId : ℕ) : StackState :=
  let index := s.children.findIdx (fun c => c.componentId? == Option.some targetId)
  let newActiveId :=
    if s.activeId = Option.some targetId ∧ s.children.length ≠ 1 then
      (s.children.get? (if index = 0 then 1 else index - 1)).bind Item.componentId?
    else s.activeId
  { children := s.children.eraseIdx index, activeId := newActiveId }

theorem findIdx_eq_of_first (p : Item → Bool) :
    ∀ (cs : List Item) (i : ℕ),
      (∀ j, j < i → ∀ c, cs.get? j = Option.some c → p c = false) →
      ∀ c, cs.get? i = Option.some c → p c = true → cs.findIdx p = i := by
  intro cs
  induction cs with
  | nil =>
    intro i _ c hget _
    exact absurd hget (by simp)
  | cons a as ih =>
    intro i hbefore c hget hp
    cases i with
    | zero =>
      have ha : a = c := Option.some.inj hget
      rw [List.findIdx_cons, ha, hp]
      rfl
    | succ j =>
      have hpa : p a = false :=
        hbefore 0 (Nat.succ_pos j) a rfl
      rw [List.findIdx_cons, hpa]
      have hrec : as.findIdx p = j :=
        ih j (fun k hk d hgd => hbefore (k + 1) (Nat.succ_lt_succ hk) d hgd) c hget hp
      simp [hrec]

/-- C10: removing the currently active component from a Stack with at
least two children makes active the child at index 1 when the removed
item was at index 0, and otherwise the child at the index immediately
before the removed item, positions taken before the removal; the removed
item disappears from the child list. -/
theorem stack_removeChild_new_active (cs : List Item) (targetId : ℕ) (i : ℕ)
    (w h : ℚ)
    (hlen : 2 ≤ cs.length)
    (hget : cs.get? i = Option.some (Item.component targetId w h))
    (hbefore : ∀ j, j < i → ∀ c, cs.get? j = Option.some c →
      (c.componentId? == Option.some targetId) = false) :
    (StackState.removeChild ⟨cs, Option.some targetId⟩ targetId).activeId =
        (cs.get? (if i = 0 then 1 else i - 1)).bind Item.componentId? ∧
      (StackState.removeChild ⟨cs, Option.some targetId⟩ targetId).children =
        cs.eraseIdx i := by
  have hfind : cs.findIdx (fun c => c.componentId? == Option.some targetId) = i :=
    findIdx_eq_of_first _ cs i hbefore _ hget (by simp [Item.componentId?])
  unfold StackState.removeChild
  simp only [hfind]
  refine ⟨?_, trivial⟩
  rw [if_pos (⟨trivial, by omega⟩ : True ∧ cs.length ≠ 1)]

/-- Witness for C10: removing the active first tab of a two-tab stack
makes the second tab active. -/
theorem stack_removeChild_new_active_witness :
    2 ≤ ([Item.component 5 50 50, Item.component 6 50 50] : List Item).length ∧
      (StackState.removeChild
            ⟨[Item.component 5 50 50, Item.component 6 50 50], Option.some 5⟩
            5).activeId =
        (([Item.component 5 50 50, Item.component 6 50 50] : List Item).get?
            (if (0 : ℕ) = 0 then 1 else 0 - 1)).bind Item.componentId? ∧
      (StackState.removeChild
            ⟨[Item.component 5 50 50, Item.component 6 50 50], Option.some 5⟩
            5).children =
        ([Item.component 5 50 50, Item.component 6 50 50] : List Item).eraseIdx 0 :=
  ⟨Nat.le.refl,
    (stack_removeChild_new_active [Item.component 5 50 50, Item.component 6 50 50]
        5 0 50 50 Nat.le.refl rfl
        (fun j hj => absurd hj (Nat.not_lt_zero j))).1,
    (stack_removeChild_new_active [Item.component 5 50 50, Item.component 6 50 50]
        5 0 50 50 Nat.le.refl rfl
        (fun j hj => absurd hj (Nat.not_lt_zero j))).2⟩

/-- The maximise / minimise state owned per layout instance: the currently
maximised stack (at most one), the stacks whose component items are in
stack-maximised mode, and the log of emitted events. -/
structure MaximiseState where
  maximisedStackId : Option ℕ
  stackMaximisedFlags : List ℕ
  eventLog : List String
deriving DecidableEq, Repr

/-- LayoutManager.processMaximiseStack: record the stack as maximised,
resize it to the viewport (presentation-side) and emit maximised and
stateChanged. -/
def processMaximiseStack (stackId : ℕ) (s : MaximiseState) : MaximiseState :=
  { s with
    maximisedStackId := Option.some stackId
    eventLog := s.eventLog ++ ["maximised", "stateChanged"] }

/-- LayoutManager.processMinimiseMaximisedStack: AssertError LMMMS74422
when nothing is maximised, otherwise restore the stack to the placeholder
position and emit minimised and stateChanged. -/
def processMinimiseMaximisedStack (s : MaximiseState) :
    Except LayoutError MaximiseState :=
  match s.maximisedStackId with
  | Option.none => Except.error (LayoutError.assertError "LMMMS74422")
  | Option.some _ =>
    Except.ok { s with
      maximisedStackId := Option.none
      eventLog := s.eventLog ++ ["minimised", "stateChanged"] }

/-- LayoutManager.setMaximisedStack: undefined minimises the current
maximised stack if any; a different stack first minimises the current one
and then maximises the new one; the already-maximised stack is left
alone. -/
def setMaximisedStack (stack : Option ℕ) (s : MaximiseState) :
    Except LayoutError MaximiseState :=
  match stack with
  | Option.none =>
    if s.maximisedStackId ≠ Option.none then processMinimiseMaximisedStack s
    else Except.ok s
  | Option.some st =>
    if Option.some st ≠ s.maximisedStackId then
      (if s.maximisedStackId ≠ Option.none then processMinimiseMaximisedStack s
       else Except.ok s).bind
        (fun s1 => Except.ok (processMaximiseStack st s1))
    else Except.ok s

/-- Stack.maximise (stack.ts:340): only acts when the stack is not already
maximised (isMaximised is identity with layoutManager.maximisedStack);
then registers with the layout manager, puts every child component in
stack-maximised mode and emits stateChanged. -/
def stackMaximise (stackId : ℕ) (s : MaximiseState) :
    Except LayoutError MaximiseState :=
  if s.maximisedStackId = Option.some stackId then Except.ok s
  else
    (setMaximisedStack (Option.some stackId) s).bind
      (fun s1 => Except.ok { s1 with
        stackMaximisedFlags := stackId :: s1.stackMaximisedFlags
        eventLog := s1.eventLog ++ ["stateChanged"] })

/-- Stack.minimise (stack.ts:357): only acts when the stack is the
currently maximised one; then deregisters, takes every child component out
of stack-maximised mode and emits stateChanged. -/
def stackMinimise (stackId : ℕ) (s : MaximiseState) :
    Except LayoutError MaximiseState :=
  if s.maximisedStackId = Option.some stackId then
    (setMaximisedStack Option.none s).bind
      (fun s1 => Except.ok { s1 with
        stackMaximisedFlags := s1.stackMaximisedFlags.erase stackId
        eventLog := s1.eventLog ++ ["stateChanged"] })
  else Except.ok s

/-- C7: minimise on a Stack that is not maximised leaves the state
unchanged, and maximise on a Stack that is already maximised leaves the
state unchanged. -/
theorem maximise_minimise_noop (stackId : ℕ) (s : MaximiseState) :
    (s.maximisedStackId ≠ Option.some stackId →
        stackMinimise stackId s = Except.ok s) ∧
      (s.maximisedStackId = Option.some stackId →
        stackMaximise stackId s = Except.ok s) := by
  constructor
  · intro hne
    unfold stackMinimise
    rw [if_neg hne]
  · intro heq
    unfold stackMaximise
    rw [if_pos heq]

/-- Witness for C7: with stack 5 maximised, minimising stack 3 and
maximising stack 5 are both no-ops. -/
theorem maximise_minimise_noop_witness :
    ((⟨Option.some 5, [5], []⟩ : MaximiseState).maximisedStackId ≠ Option.some 3 ∧
        stackMinimise 3 ⟨Option.some 5, [5], []⟩ =
          Except.ok ⟨Option.some 5, [5], []⟩) ∧
      ((⟨Option.some 5, [5], []⟩ : MaximiseState).maximisedStackId = Option.some 5 ∧
        stackMaximise 5 ⟨Option.some 5, [5], []⟩ =
          Except.ok ⟨Option.some 5, [5], []⟩) :=
  ⟨⟨by decide, (maximise_minimise_noop 3 ⟨Option.some 5, [5], []⟩).1 (by decide)⟩,
    ⟨rfl, (maximise_minimise_noop 5 ⟨Option.some 5, [5], []⟩).2 rfl⟩⟩

/-- The terminal outcome of a drag session release, as produced by
DragProxy.onDrop: a commit of the selected zone's drop action with the
dragged component, a revert re-adding the dragged component to its
original parent (carrying that parent's new state and the insertion
index), or destruction of the dragged component. -/
inductive DropOutcome where
  | committed (zoneId : ℕ) (item : Item)
  | reverted (newParent : StackState) (insertedIndex : ℕ)
  | discarded (item : Item)

/-- DragProxy.onDrop (drag-proxy source, lines 212 to 254): if a drop zone
is selected, invoke its onDrop action with the dragged component; else if
an original parent is known, re-add the dragged component to it (plain
addChild, no index); else destroy the dragged component. -/
def dragProxyOnDrop (selectedDropZone : Option DropZone)
    (originalParent : Option StackState) (draggedComponent : Item) :
    Except LayoutError DropOutcome :=
  match selectedDropZone with
  | Option.some zone =>
    Except.ok (DropOutcome.committed zone.zoneId draggedComponent)
  | Option.none =>
    match originalParent with
    | Option.some parent =>
      match parent.addChild draggedComponent Option.none with
      | Except.ok (p2, idx) => Except.ok (DropOutcome.reverted p2 idx)
      | Except.error e => Except.error e
    | Option.none => Except.ok (DropOutcome.discarded draggedComponent)

/-- Amended C1: on release exactly one of three outcomes occurs: with a
selected drop zone, its commit action is invoked on the dragged component;
otherwise with a known original parent, the dragged component is re-added
to that parent, appended at the end of its children (addChild with no
index, which defaults to the end) and made active, not necessarily at its
original index; otherwise the component is destroyed. -/
theorem dragProxy_onDrop_trichotomy (selectedDropZone : Option DropZone)
    (originalParent : Option StackState) (did : ℕ) (dw dh : ℚ) :
    (∀ zone, selectedDropZone = Option.some zone →
        dragProxyOnDrop selectedDropZone originalParent (Item.component did dw dh) =
          Except.ok (DropOutcome.committed zone.zoneId (Item.component did dw dh))) ∧
      (∀ parent, selectedDropZone = Option.none →
        originalParent = Option.some parent →
        dragProxyOnDrop selectedDropZone originalParent (Item.component did dw dh) =
          Except.ok (DropOutcome.reverted
            ⟨parent.children ++ [Item.component did dw dh], Option.some did⟩
            parent.children.length)) ∧
      (selectedDropZone = Option.none → originalParent = Option.none →
        dragProxyOnDrop selectedDropZone originalParent (Item.component did dw dh) =
          Except.ok (DropOutcome.discarded (Item.component did dw dh))) := by
  refine ⟨?_, ?_, ?_⟩
  · intro zone hz
    subst hz
    rfl
  · intro parent hz hp
    subst hz; subst hp
    have hadd : parent.addChild (Item.component did dw dh) Option.none =
        Except.ok (⟨parent.children ++ [Item.component did dw dh], Option.some did⟩,
          parent.children.length) := by
      unfold StackState.addChild indexTooLarge contentItemAddChild
      simp [Item.isComponent, Item.componentId?, List.insertIdx_length_self]
    show (match parent.addChild (Item.component did dw dh) Option.none with
      | Except.ok (p2, idx) => Except.ok (DropOutcome.reverted p2 idx)
      | Except.error e => Except.error e) =
        Except.ok (DropOutcome.reverted
          ⟨parent.children ++ [Item.component did dw dh], Option.some did⟩
          parent.children.length)
    rw [hadd]
  · intro hz hp
    subst hz; subst hp
    rfl

/-- Witness for the amended C1 theorem: all three outcomes at concrete
inputs. -/
theorem dragProxy_onDrop_trichotomy_witness :
    dragProxyOnDrop (Option.some ⟨9, ⟨0, 0, 1, 1⟩, ⟨0, 0, 1, 1⟩, 1⟩)
        (Option.some ⟨[], Option.none⟩) (Item.component 4 50 50) =
      Except.ok (DropOutcome.committed 9 (Item.component 4 50 50)) ∧
      dragProxyOnDrop Option.none
          (Option.some ⟨[Item.component 1 50 50], Option.some 1⟩)
          (Item.component 4 50 50) =
        Except.ok (DropOutcome.reverted
          ⟨[Item.component 1 50 50] ++ [Item.component 4 50 50], Option.some 4⟩
          ([Item.component 1 50 50] : List Item).length) ∧
      dragProxyOnDrop Option.none Option.none (Item.component 4 50 50) =
        Except.ok (DropOutcome.discarded (Item.component 4 50 50)) :=
  ⟨(dragProxy_onDrop_trichotomy (Option.some ⟨9, ⟨0, 0, 1, 1⟩, ⟨0, 0, 1, 1⟩, 1⟩)
        (Option.some ⟨[], Option.none⟩) 4 50 50).1 _ rfl,
    (dragProxy_onDrop_trichotomy Option.none
        (Option.some ⟨[Item.component 1 50 50], Option.some 1⟩) 4 50 50).2.1 _ rfl rfl,
    (dragProxy_onDrop_trichotomy Option.none Option.none 4 50 50).2.2 rfl rfl⟩

/-- Counterexample to C1 as stated: a component dragged from index 0 of a
two-tab stack, released outside every drop zone, is re-added by the revert
at the end of the original parent (index 1), not at its original index 0:
the parent's index 0 now holds the other component. -/
theorem dragProxy_revert_index_counterexample :
    StackState.removeChild
        ⟨[Item.component 0 50 50, Item.component 1 50 50], Option.some 0⟩ 0 =
      ⟨[Item.component 1 50 50], Option.some 1⟩ ∧
      dragProxyOnDrop Option.none
          (Option.some ⟨[Item.component 1 50 50], Option.some 1⟩)
          (Item.component 0 50 50) =
        Except.ok (DropOutcome.reverted
          ⟨[Item.component 1 50 50, Item.component 0 50 50], Option.some 0⟩ 1) ∧
      ([Item.component 0 50 50, Item.component 1 50 50] : List Item).get? 0 =
        Option.some (Item.component 0 50 50) ∧
      ([Item.component 1 50 50, Item.component 0 50 50] : List Item).get? 0 ≠
        Option.some (Item.component 0 50 50) := by
  refine ⟨rfl, rfl, rfl, ?_⟩
  intro hcontra
  have h2 := Option.some.inj hcontra
  injection h2 with ha hb hc
  exact absurd ha (by decide)

/-- The kinds of drop zone a Stack publishes (Stack.getHeaderAndBodyDropZones):
its header, its whole body when empty, or its four edge zones. -/
inductive StackZoneKind where
  | header
  | emptyBody
  | bodyLeft
  | bodyTop
  | bodyRight
  | bodyBottom
deriving DecidableEq, Repr

/-- A drop zone of a Stack: its kind (standing in for the onDrop closure,
see stackEdgeZoneDrop), hover rectangle and highlight rectangle. -/
structure StackZone where
  kind : StackZoneKind
  hoverArea : Rect
  highlightArea : Rect
deriving DecidableEq, Repr

/-- Stack.getHeaderAndBodyDropZones (stack.ts:454), geometry part: given
the measured header and content areas, the header zone; then, for an
empty stack, the whole body; otherwise the four edge zones with the hover
and highlight rectangles computed from the content area exactly as in the
source (fractions 0.25, 0.5 and 0.75 of the content width and 0.5 of the
content height). -/
def getHeaderAndBodyDropZones (headerArea contentArea : Rect)
    (contentItemCount : ℕ) : List StackZone :=
  let contentWidth := contentArea.x2 - contentArea.x1
  let contentHeight := contentArea.y2 - contentArea.y1
  let headerZone : StackZone := ⟨StackZoneKind.header, headerArea, headerArea⟩
  if contentItemCount = 0 then
    [headerZone, ⟨StackZoneKind.emptyBody, contentArea, contentArea⟩]
  else
    [headerZone,
      ⟨StackZoneKind.bodyLeft,
        ⟨contentArea.x1, contentArea.y1,
          contentArea.x1 + contentWidth * (1 / 4), contentArea.y2⟩,
        ⟨contentArea.x1, contentArea.y1,
          contentArea.x1 + contentWidth * (1 / 2), contentArea.y2⟩⟩,
      ⟨StackZoneKind.bodyTop,
        ⟨contentArea.x1 + contentWidth * (1 / 4), contentArea.y1,
          contentArea.x1 + contentWidth * (3 / 4),
          contentArea.y1 + contentHeight * (1 / 2)⟩,
        ⟨contentArea.x1, contentArea.y1, contentArea.x2,
          contentArea.y1 + contentHeight * (1 / 2)⟩⟩,
      ⟨StackZoneKind.bodyRight,
        ⟨contentArea.x1 + contentWidth * (3 / 4), contentArea.y1,
          contentArea.x2, contentArea.y2⟩,
        ⟨contentArea.x1 + contentWidth * (1 / 2), contentArea.y1,
          contentArea.x2, contentArea.y2⟩⟩,
      ⟨StackZoneKind.bodyBottom,
        ⟨contentArea.x1 + contentWidth * (1 / 4),
          contentArea.y1 + contentHeight * (1 / 2),
          contentArea.x1 + contentWidth * (3 / 4), contentArea.y2⟩,
        ⟨contentArea.x1, contentArea.y1 + contentHeight * (1 / 2),
          contentArea.x2, contentArea.y2⟩⟩]

/-- Stack.splitStackAndAddItem (stack.ts:416): wrap the dropped item in a
new Stack (Stack.addChild makes it the active child; the fresh stack's
default size shares come from configuration defaults outside the
snapshot, modelled as 50), replace this stack in its parent by a new Row
(splitIsColumn false) or Column (true) that takes over this stack's
position and size shares (ContentItem.replaceChild preserves position and
size shares, spec section 4.1), re-add this stack, add the new stack at
addAtPosition (default end), and give both a 50 share of the row/column
dimension (width for a row, height for a column). -/
def splitStackAndAddItem (splitIsColumn : Bool) (children : List Item)
    (activeId : Option ℕ) (width height : ℚ) (itemToAdd : Item)
    (addAtPosition : Option ℕ) : Item :=
  let stackWithAddedItem : Item :=
    Item.stack [itemToAdd] itemToAdd.componentId? 50 50
  let originalStack : Item :=
    if splitIsColumn then Item.stack children activeId width 50
    else Item.stack children activeId 50 height
  let rowOrColumnChildren :=
    [originalStack].insertIdx (addAtPosition.getD 1) stackWithAddedItem
  if splitIsColumn then Item.column rowOrColumnChildren width height
  else Item.row rowOrColumnChildren width height

/-- The onDrop actions attached to a Stack's four edge zones
(stack.ts:519): left splits into a row with the new item first, top into
a column with the new item first, right into a row with the new item
last, bottom into a column with the new item last.  The header and
empty-body zones add a tab instead (none here). -/
def stackEdgeZoneDrop (kind : StackZoneKind) (children : List Item)
    (activeId : Option ℕ) (width height : ℚ) (droppedItem : Item) : Option Item :=
  match kind with
  | StackZoneKind.bodyLeft =>
    Option.some (splitStackAndAddItem false children activeId width height
      droppedItem (Option.some 0))
  | StackZoneKind.bodyTop =>
    Option.some (splitStackAndAddItem true children activeId width height
      droppedItem (Option.some 0))
  | StackZoneKind.bodyRight =>
    Option.some (splitStackAndAddItem false children activeId width height
      droppedItem Option.none)
  | StackZoneKind.bodyBottom =>
    Option.some (splitStackAndAddItem true children activeId width height
      droppedItem Option.none)
  | _ => Option.none

/-- The top edge band as claim C5 words it, for comparison: were the
top/bottom zones analogous on the height to the left/right 25/50/25 split
of the width, the top hover band would span the full width and the top
quarter of the height. -/
def claimedTopZoneHover (contentArea : Rect) : Rect :=
  ⟨contentArea.x1, contentArea.y1, contentArea.x2,
    contentArea.y1 + (contentArea.y2 - contentArea.y1) * (1 / 4)⟩

/-- Counterexample to C5 as stated: for a non-empty stack with content
area 0..100 x 0..100, the code's top hover zone is the rectangle
(25,0)-(75,50): the middle half of the width and the top half of the
height, not the band described by the claim (full width, top quarter of
the height, split at 25 and 75 percent of the height).  The pointer
position (50,40) is inside the code's top zone but outside the claimed
band. -/
theorem stack_edge_bands_counterexample :
    ((getHeaderAndBodyDropZones ⟨0, -20, 100, 0⟩ ⟨0, 0, 100, 100⟩ 1).get? 2).map
        (fun z => z.kind) = Option.some StackZoneKind.bodyTop ∧
      ((getHeaderAndBodyDropZones ⟨0, -20, 100, 0⟩ ⟨0, 0, 100, 100⟩ 1).get? 2).map
        (fun z => z.hoverArea) = Option.some ⟨25, 0, 75, 50⟩ ∧
      (⟨25, 0, 75, 50⟩ : Rect).containsPoint 50 40 ∧
      ¬ (claimedTopZoneHover ⟨0, 0, 100, 100⟩).containsPoint 50 40 ∧
      (⟨25, 0, 75, 50⟩ : Rect) ≠ claimedTopZoneHover ⟨0, 0, 100, 100⟩ := by
  refine ⟨rfl, ?_, ?_, ?_, ?_⟩
  · unfold getHeaderAndBodyDropZones
    norm_num
  · unfold Rect.containsPoint
    norm_num
  · unfold claimedTopZoneHover Rect.containsPoint
    norm_num
  · unfold claimedTopZoneHover
    intro hcontra
    injection hcontra with h1 h2 h3 h4
    exact absurd h1 (by norm_num)

/-- Amended C5: for every non-empty Stack, the four edge hover zones are:
left and right spanning the outer quarters of the content width at full
height; top and bottom spanning the middle half of the content width and
the upper / lower half of the content height.  Dropping on an edge zone
replaces the Stack in its parent by a Row (left/right) or Column
(top/bottom) containing a new Stack wrapping the dropped item and the
original Stack, each with a 50 share of the distributed dimension, the
new Stack at the start for left/top and at the end for right/bottom. -/
theorem stack_edge_zones_amended (headerArea contentArea : Rect)
    (children : List Item) (activeId : Option ℕ) (width height : ℚ)
    (did : ℕ) (dw dh : ℚ) (n : ℕ) (hn : n ≠ 0) :
    (getHeaderAndBodyDropZones headerArea contentArea n).map
        (fun z => (z.kind, z.hoverArea)) =
      [(StackZoneKind.header, headerArea),
        (StackZoneKind.bodyLeft,
          ⟨contentArea.x1, contentArea.y1,
            contentArea.x1 + (contentArea.x2 - contentArea.x1) * (1 / 4),
            contentArea.y2⟩),
        (StackZoneKind.bodyTop,
          ⟨contentArea.x1 + (contentArea.x2 - contentArea.x1) * (1 / 4),
            contentArea.y1,
            contentArea.x1 + (contentArea.x2 - contentArea.x1) * (3 / 4),
            contentArea.y1 + (contentArea.y2 - contentArea.y1) * (1 / 2)⟩),
        (StackZoneKind.bodyRight,
          ⟨contentArea.x1 + (contentArea.x2 - contentArea.x1) * (3 / 4),
            contentArea.y1, contentArea.x2, contentArea.y2⟩),
        (StackZoneKind.bodyBottom,
          ⟨contentArea.x1 + (contentArea.x2 - contentArea.x1) * (1 / 4),
            contentArea.y1 + (contentArea.y2 - contentArea.y1) * (1 / 2),
            contentArea.x1 + (contentArea.x2 - contentArea.x1) * (3 / 4),
            contentArea.y2⟩)] ∧
      stackEdgeZoneDrop StackZoneKind.bodyLeft children activeId width height
          (Item.component did dw dh) =
        Option.some (Item.row
          [Item.stack [Item.component did dw dh] (Option.some did) 50 50,
            Item.stack children activeId 50 height] width height) ∧
      stackEdgeZoneDrop StackZoneKind.bodyTop children activeId width height
          (Item.component did dw dh) =
        Option.some (Item.column
          [Item.stack [Item.component did dw dh] (Option.some did) 50 50,
            Item.stack children activeId width 50] width height) ∧
      stackEdgeZoneDrop StackZoneKind.bodyRight children activeId width height
          (Item.component did dw dh) =
        Option.some (Item.row
          [Item.stack children activeId 50 height,
            Item.stack [Item.component did dw dh] (Option.some did) 50 50]
          width height) ∧
      stackEdgeZoneDrop StackZoneKind.bodyBottom children activeId width height
          (Item.component did dw dh) =
        Option.some (Item.column
          [Item.stack children activeId width 50,
            Item.stack [Item.component did dw dh] (Option.some did) 50 50]
          width height) := by
  refine ⟨?_, rfl, rfl, rfl, rfl⟩
  unfold getHeaderAndBodyDropZones
  rw [if_neg hn]
  rfl

/-- Witness for the amended C5 theorem: the left-edge drop on a concrete
one-tab stack of shares 30 x 40. -/
theorem stack_edge_zones_amended_witness :
    (1 : ℕ) ≠ 0 ∧
      stackEdgeZoneDrop StackZoneKind.bodyLeft [Item.component 1 50 50]
          (Option.some 1) 30 40 (Item.component 2 50 50) =
        Option.some (Item.row
          [Item.stack [Item.component 2 50 50] (Option.some 2) 50 50,
            Item.stack [Item.component 1 50 50] (Option.some 1) 50 40] 30 40) :=
  ⟨by decide,
    (stack_edge_zones_amended ⟨0, -20, 100, 0⟩ ⟨0, 0, 100, 100⟩
        [Item.component 1 50 50] (Option.some 1) 30 40 2 50 50 1
        (by decide)).2.1⟩

mutual

/-- The component leaves of an item in pre-order: the items that
LayoutManager.addChildContentItemsToContainer moves (component children of
stacks directly, everything else by recursion). -/
def itemComponents : Item → List Item
  | Item.component i w h => [Item.component i w h]
  | Item.stack cs _ _ _ => listComponents cs
  | Item.row cs _ _ => listComponents cs
  | Item.column cs _ _ => listComponents cs

/-- Pre-order components of a forest. -/
def listComponents : List Item → List Item
  | [] => []
  | c :: rest => itemComponents c ++ listComponents rest

end

mutual

/-- The first Stack of an item in the traversal order of
LayoutManager.findAllStacksRecursive: a stack child is taken itself,
components are skipped, rows and columns are searched depth-first. -/
def firstStackItem? : Item → Option Item
  | Item.component _ _ _ => Option.none
  | Item.stack cs aid w h => Option.some (Item.stack cs aid w h)
  | Item.row cs _ _ => firstStackList? cs
  | Item.column cs _ _ => firstStackList? cs

/-- The head of the allStacks array LayoutManager.getAllStacks collects,
over the ground item's children. -/
def firstStackList? : List Item → Option Item
  | [] => Option.none
  | c :: rest =>
    match firstStackItem? c with
    | Option.some st => Option.some st
    | Option.none => firstStackList? rest

end

/-- Whether getAllStacks would find any stack below these children. -/
def listHasStack (cs : List Item) : Bool :=
  (firstStackList? cs).isSome

mutual

/-- Append moved component items to the first Stack in
findAllStacksRecursive order, leaving everything else unchanged.
Stack.addChild appends each moved item and makes it active, so the last
appended component becomes the active one.  none when the subtree holds
no stack. -/
def appendToFirstStackItem : Item → List Item → Option Item
  | Item.component _ _ _, _ => Option.none
  | Item.stack cs aid w h, comps =>
    Option.some (Item.stack (cs ++ comps)
      (match comps.getLast? with
        | Option.some c => c.componentId?
        | Option.none => aid) w h)
  | Item.row cs w h, comps =>
    (appendToFirstStackList cs comps).map (fun cs2 => Item.row cs2 w h)
  | Item.column cs w h, comps =>
    (appendToFirstStackList cs comps).map (fun cs2 => Item.column cs2 w h)

/-- List version of appendToFirstStackItem: the first child whose subtree
holds a stack absorbs the moved components. -/
def appendToFirstStackList : List Item → List Item → Option (List Item)
  | [], _ => Option.none
  | c :: rest, comps =>
    match appendToFirstStackItem c comps with
    | Option.some c2 => Option.some (c2 :: rest)
    | Option.none =>
      (appendToFirstStackList rest comps).map (fun rest2 => c :: rest2)

end

/-- One iteration of the collapse loop of
LayoutManager.adjustColumnsResponsive, denotationally: the right-most
column's components (recursively flattened, pre-order) are moved one by
one into the first stack (the allStacks[0] captured before the loop; the
theorems below place it in the first column, where it stays), and the
emptied column disappears through the removal cascade
(ContentItem.removeChild, modelled from the spec, section 4.1 and the
lifecycle paragraph: a Stack or Row/Column that becomes empty or
single-child as a side effect of removal is itself removed/collapsed).
The other half of that cascade, the single-child promotion of the root
row itself, is applied by adjustColumnsResponsive after the loop (see
promoteSingleChildRow): the loop leaves the row with
finalColumnCount >= 1 columns, so the row can drop to one child only on
its very last iteration, and applying the promotion after the loop is
the same as applying it inside that last iteration.  The fallback
branch, reached only when the remaining columns hold no stack, is
unreachable under the AssertError LMACRS77413 guard of
adjustColumnsResponsive. -/
def collapseLastColumn (rowChildren : List Item) : List Item :=
  match rowChildren.getLast? with
  | Option.none => rowChildren
  | Option.some column =>
    match appendToFirstStackList rowChildren.dropLast (itemComponents column) with
    | Option.some cs2 => cs2
    | Option.none => rowChildren.dropLast

/-- The collapse loop: stack the given number of right-most columns. -/
def collapseColumns : ℕ → List Item → List Item
  | 0, cs => cs
  | Nat.succ n, cs => collapseColumns n (collapseLastColumn cs)

/-- The responsiveMode layout setting. -/
inductive ResponsiveMode where
  | off
  | always
  | onload
deriving DecidableEq, Repr

/-- LayoutManager.useResponsiveLayout: responsive when the mode is always,
or when it is onload and this is the first load. -/
def useResponsiveLayout (responsiveMode : ResponsiveMode) (firstLoad : Bool) :
    Bool :=
  responsiveMode == ResponsiveMode.always ||
    (responsiveMode == ResponsiveMode.onload && firstLoad)

/-- Modelled from the spec: the single-child promotion of
ContentItem.removeChild (content-item.ts is not in the source snapshot).
Spec section 4.1: if removal leaves a Row/Column with one child, that
child is promoted in its parent's place (structural collapse).  Here it
is applied to the root row once its columns have been collapsed: a row
left with a single column is replaced by that column; otherwise the row
keeps its new column list.  Mid-loop the row always retains at least
finalColumnCount >= 1 plus one columns, so this can only fire on the
loop's last removal, and applying it once after the loop is faithful. -/
def promoteSingleChildRow (rowItem : Item) (newChildren : List Item) : Item :=
  match newChildren with
  | [single] => single
  | _ => rowItem.withChildren newChildren

/-- The slice of LayoutManager state that adjustColumnsResponsive reads
and writes: the main panel ground item's children, the available width,
the configured minimum item width (both whole pixels), the responsive
mode, and the firstLoad / updatingColumnsResponsive flags. -/
structure MainLayoutState where
  rootChildren : List Item
  width : ℕ
  minItemWidth : ℕ
  responsiveMode : ResponsiveMode
  firstLoad : Bool
  updatingColumnsResponsive : Bool

/-- LayoutManager.adjustColumnsResponsive (layout-manager.ts:1516): set
firstLoad to false (before useResponsiveLayout reads it, as in the
source); when responsive layout applies, no update is in progress and the
main panel's root is a Row: do nothing for at most one column or when
columnCount * minItemWidth still fits in the width; otherwise
finalColumnCount = max(floor(width / minItemWidth), 1) (natural division
is the floor of the quotient of whole pixels), AssertError LMACRS77413
when the tree holds no stack at all, else move the content of the
columnCount - finalColumnCount right-most columns into the first stack;
if the removals leave the root row with a single column, that column is
promoted in the row's place (spec 4.1 cascade, see
promoteSingleChildRow).  The transient updatingColumnsResponsive flag is
reset before returning. -/
def adjustColumnsResponsive (s : MainLayoutState) :
    Except LayoutError MainLayoutState :=
  match s.rootChildren with
  | [] => Except.ok { s with firstLoad := false }
  | root :: rest =>
    if useResponsiveLayout s.responsiveMode false &&
        !s.updatingColumnsResponsive && root.isRow then
      if root.childrenOf.length ≤ 1 then Except.ok { s with firstLoad := false }
      else if root.childrenOf.length * s.minItemWidth ≤ s.width then
        Except.ok { s with firstLoad := false }
      else if listHasStack s.rootChildren = false then
        Except.error (LayoutError.assertError "LMACRS77413")
      else
        Except.ok { s with
          firstLoad := false
          rootChildren := promoteSingleChildRow root
            (collapseColumns
              (root.childrenOf.length - max (s.width / s.minItemWidth) 1)
              root.childrenOf) :: rest }
    else Except.ok { s with firstLoad := false }

theorem listComponents_append (a b : List Item) :
    listComponents (a ++ b) = listComponents a ++ listComponents b := by
  induction a with
  | nil => rfl
  | cons c rest ih =>
    show itemComponents c ++ listComponents (rest ++ b) =
      (itemComponents c ++ listComponents rest) ++ listComponents b
    rw [ih, List.append_assoc]

mutual

theorem appendToFirstStackItem_none : ∀ (it : Item) (comps : List Item),
    firstStackItem? it = Option.none →
    appendToFirstStackItem it comps = Option.none
  | Item.component _ _ _, _, _ => rfl
  | Item.stack cs aid w h, comps, hfs => by
    exact absurd hfs (by simp [firstStackItem?])
  | Item.row cs w h, comps, hfs => by
    have hl := appendToFirstStackList_none cs comps
      (by simpa [firstStackItem?] using hfs)
    simp [appendToFirstStackItem, hl]
  | Item.column cs w h, comps, hfs => by
    have hl := appendToFirstStackList_none cs comps
      (by simpa [firstStackItem?] using hfs)
    simp [appendToFirstStackItem, hl]

theorem appendToFirstStackList_none : ∀ (cs comps : List Item),
    firstStackList? cs = Option.none →
    appendToFirstStackList cs comps = Option.none
  | [], _, _ => rfl
  | c :: rest, comps, hfs => by
    cases hc : firstStackItem? c with
    | some st =>
      have hcc : firstStackList? (c :: rest) = Option.some st := by
        show (match firstStackItem? c with
          | Option.some st => Option.some st
          | Option.none => firstStackList? rest) = Option.some st
        rw [hc]
      rw [hcc] at hfs
      exact absurd hfs (Option.noConfusion)
    | none =>
      have hrest : firstStackList? rest = Option.none := by
        have hcc : firstStackList? (c :: rest) = firstStackList? rest := by
          show (match firstStackItem? c with
            | Option.some st => Option.some st
            | Option.none => firstStackList? rest) = firstStackList? rest
          rw [hc]
        rw [← hcc]
        exact hfs
      have h1 := appendToFirstStackItem_none c comps hc
      have h2 := appendToFirstStackList_none rest comps hrest
      simp [appendToFirstStackList, h1, h2]

end

mutual

theorem appendToFirstStackItem_spec : ∀ (it : Item) (comps scs : List Item)
    (aid : Option ℕ) (w h : ℚ),
    firstStackItem? it = Option.some (Item.stack scs aid w h) →
    ∃ it2 aid2, appendToFirstStackItem it comps = Option.some it2 ∧
      firstStackItem? it2 = Option.some (Item.stack (scs ++ comps) aid2 w h)
  | Item.component _ _ _, comps, scs, aid, w, h, hfs => by
    exact absurd hfs (by simp [firstStackItem?])
  | Item.stack cs aid0 w0 h0, comps, scs, aid, w, h, hfs => by
    have h1 : cs = scs ∧ aid0 = aid ∧ w0 = w ∧ h0 = h := by
      simpa [firstStackItem?] using hfs
    obtain ⟨rfl, rfl, rfl, rfl⟩ := h1
    exact ⟨Item.stack (cs ++ comps)
        (match comps.getLast? with
          | Option.some c => c.componentId?
          | Option.none => aid0) w0 h0,
      (match comps.getLast? with
        | Option.some c => c.componentId?
        | Option.none => aid0),
      rfl, rfl⟩
  | Item.row cs w0 h0, comps, scs, aid, w, h, hfs => by
    obtain ⟨cs2, aid2, h1, h2⟩ :=
      appendToFirstStackList_spec cs comps scs aid w h
        (by simpa [firstStackItem?] using hfs)
    exact ⟨Item.row cs2 w0 h0, aid2, by simp [appendToFirstStackItem, h1],
      by simpa [firstStackItem?] using h2⟩
  | Item.column cs w0 h0, comps, scs, aid, w, h, hfs => by
    obtain ⟨cs2, aid2, h1, h2⟩ :=
      appendToFirstStackList_spec cs comps scs aid w h
        (by simpa [firstStackItem?] using hfs)
    exact ⟨Item.column cs2 w0 h0, aid2, by simp [appendToFirstStackItem, h1],
      by simpa [firstStackItem?] using h2⟩

theorem appendToFirstStackList_spec : ∀ (cs comps scs : List Item)
    (aid : Option ℕ) (w h : ℚ),
    firstStackList? cs = Option.some (Item.stack scs aid w h) →
    ∃ cs2 aid2, appendToFirstStackList cs comps = Option.some cs2 ∧
      firstStackList? cs2 = Option.some (Item.stack (scs ++ comps) aid2 w h)
  | [], comps, scs, aid, w, h, hfs => by
    exact absurd hfs (by simp [firstStackList?])
  | c :: rest, comps, scs, aid, w, h, hfs => by
    cases hc : firstStackItem? c with
    | some st =>
      have hst : st = Item.stack scs aid w h := by
        have hcc : firstStackList? (c :: rest) = Option.some st := by
          show (match firstStackItem? c with
            | Option.some st => Option.some st
            | Option.none => firstStackList? rest) = Option.some st
          rw [hc]
        rw [hcc] at hfs
        exact Option.some.inj hfs
      subst hst
      obtain ⟨c2, aid2, h1, h2⟩ :=
        appendToFirstStackItem_spec c comps scs aid w h hc
      refine ⟨c2 :: rest, aid2, ?_, ?_⟩
      · show (match appendToFirstStackItem c comps with
          | Option.some c2 => Option.some (c2 :: rest)
          | Option.none =>
            (appendToFirstStackList rest comps).map (fun rest2 => c :: rest2)) =
            Option.some (c2 :: rest)
        rw [h1]
      · show (match firstStackItem? c2 with
          | Option.some st => Option.some st
          | Option.none => firstStackList? rest) =
            Option.some (Item.stack (scs ++ comps) aid2 w h)
        rw [h2]
    | none =>
      have hrest : firstStackList? rest =
          Option.some (Item.stack scs aid w h) := by
        have hcc : firstStackList? (c :: rest) = firstStackList? rest := by
          show (match firstStackItem? c with
            | Option.some st => Option.some st
            | Option.none => firstStackList? rest) = firstStackList? rest
          rw [hc]
        rw [← hcc]
        exact hfs
      obtain ⟨rest2, aid2, h1, h2⟩ :=
        appendToFirstStackList_spec rest comps scs aid w h hrest
      refine ⟨c :: rest2, aid2, ?_, ?_⟩
      · have h0 := appendToFirstStackItem_none c comps hc
        simp [appendToFirstStackList, h0, h1]
      · simp [firstStackList?, hc, h2]

end

theorem collapseColumns_spec : ∀ (n : ℕ) (c0 : Item) (rest : List Item)
    (scs : List Item) (aid : Option ℕ) (w h : ℚ),
    firstStackItem? c0 = Option.some (Item.stack scs aid w h) →
    n ≤ rest.length →
    ∃ c0n aidn, collapseColumns n (c0 :: rest) =
        c0n :: rest.take (rest.length - n) ∧
      firstStackItem? c0n = Option.some (Item.stack
        (scs ++ listComponents ((rest.drop (rest.length - n)).reverse))
        aidn w h) := by
  intro n
  induction n with
  | zero =>
    intro c0 rest scs aid w h hfs _
    refine ⟨c0, aid, ?_, ?_⟩
    · show c0 :: rest = c0 :: rest.take (rest.length - 0)
      rw [Nat.sub_zero, List.take_length]
    · rw [Nat.sub_zero, List.drop_length, List.reverse_nil]
      show firstStackItem? c0 = Option.some (Item.stack (scs ++ []) aid w h)
      rw [List.append_nil]
      exact hfs
  | succ n ih =>
    intro c0 rest scs aid w h hfs hle
    have hne : rest ≠ [] := by
      intro hnil
      rw [hnil] at hle
      exact absurd hle (by simp)
    obtain ⟨A, g, hrest⟩ : ∃ A g, rest = A ++ [g] :=
      ⟨rest.dropLast, rest.getLast hne, (List.dropLast_append_getLast hne).symm⟩
    subst hrest
    have hlenAg : (A ++ [g]).length = A.length + 1 := by simp
    have hlast : (c0 :: (A ++ [g])).getLast? = Option.some g := by
      rw [← List.cons_append]
      exact List.getLast?_concat _
    have hdropLast : (c0 :: (A ++ [g])).dropLast = c0 :: A := by
      rw [← List.cons_append]
      exact List.dropLast_concat
    obtain ⟨c0', aid', happ, hfs'⟩ :=
      appendToFirstStackItem_spec c0 (itemComponents g) scs aid w h hfs
    have happList : appendToFirstStackList (c0 :: A) (itemComponents g) =
        Option.some (c0' :: A) := by
      show (match appendToFirstStackItem c0 (itemComponents g) with
        | Option.some c2 => Option.some (c2 :: A)
        | Option.none =>
          (appendToFirstStackList A (itemComponents g)).map
            (fun rest2 => c0 :: rest2)) = Option.some (c0' :: A)
      rw [happ]
    have hstep : collapseLastColumn (c0 :: (A ++ [g])) = c0' :: A := by
      unfold collapseLastColumn
      rw [hlast, hdropLast]
      show (match appendToFirstStackList (c0 :: A) (itemComponents g) with
        | Option.some cs2 => cs2
        | Option.none => c0 :: A) = c0' :: A
      rw [happList]
    have hlen2 : n ≤ A.length := by
      rw [hlenAg] at hle
      omega
    obtain ⟨c0n, aidn, hcol, hfsn⟩ :=
      ih c0' A (scs ++ itemComponents g) aid' w h hfs' hlen2
    have harith : (A ++ [g]).length - (n + 1) = A.length - n := by
      rw [hlenAg]
      omega
    refine ⟨c0n, aidn, ?_, ?_⟩
    · show collapseColumns n (collapseLastColumn (c0 :: (A ++ [g]))) =
        c0n :: (A ++ [g]).take ((A ++ [g]).length - (n + 1))
      rw [hstep, hcol, harith,
        List.take_append_of_le_length (Nat.sub_le A.length n)]
    · have hdrop : (A ++ [g]).drop ((A ++ [g]).length - (n + 1)) =
          A.drop (A.length - n) ++ [g] := by
        rw [harith]
        exact List.drop_append_of_le_length (Nat.sub_le A.length n)
      have hcontents :
          scs ++ listComponents
            (((A ++ [g]).drop ((A ++ [g]).length - (n + 1))).reverse) =
          (scs ++ itemComponents g) ++
            listComponents ((A.drop (A.length - n)).reverse) := by
        rw [hdrop, List.reverse_append]
        show scs ++ listComponents (g :: (A.drop (A.length - n)).reverse) = _
        show scs ++ (itemComponents g ++
          listComponents ((A.drop (A.length - n)).reverse)) = _
        rw [List.append_assoc]
      rw [hcontents]
      exact hfsn

/-- C6: for every enabled responsive-collapse pass (responsiveMode always,
no update in progress) whose main-panel root is a Row with at least two
columns whose combined minimum width exceeds the available width, and
whose first column holds a stack (this is the first stack the pre-order
search finds, and it survives the collapse), the pass computes
finalColumnCount = max(floor(width / minItemWidth), 1) and moves the
content of the columnCount - finalColumnCount right-most columns
(recursively flattened to their components, right-most column first) into
the first Stack found by the pre-order search, keeping exactly
finalColumnCount columns; the row survives with those columns when
finalColumnCount is at least two, and when finalColumnCount is one the
single remaining column is promoted in the row's place. -/
theorem adjustColumnsResponsive_collapse
    (rest : List Item) (w h : ℚ) (c0 : Item) (crest : List Item)
    (scs : List Item) (aid : Option ℕ) (sw sh : ℚ)
    (width minItemWidth : ℕ) (firstLoad : Bool)
    (hfs : firstStackItem? c0 = Option.some (Item.stack scs aid sw sh))
    (hcount : 2 ≤ (c0 :: crest).length)
    (hover : width < (c0 :: crest).length * minItemWidth) :
    ∃ c0n aidn,
      adjustColumnsResponsive
          ⟨Item.row (c0 :: crest) w h :: rest, width, minItemWidth,
            ResponsiveMode.always, firstLoad, false⟩ =
        Except.ok
          ⟨promoteSingleChildRow (Item.row (c0 :: crest) w h)
              (collapseColumns
                ((c0 :: crest).length - max (width / minItemWidth) 1)
                (c0 :: crest)) :: rest,
            width, minItemWidth, ResponsiveMode.always, false, false⟩ ∧
      collapseColumns ((c0 :: crest).length - max (width / minItemWidth) 1)
          (c0 :: crest) =
        c0n :: crest.take (crest.length -
          ((c0 :: crest).length - max (width / minItemWidth) 1)) ∧
      (collapseColumns ((c0 :: crest).length - max (width / minItemWidth) 1)
          (c0 :: crest)).length = max (width / minItemWidth) 1 ∧
      (2 ≤ max (width / minItemWidth) 1 →
        promoteSingleChildRow (Item.row (c0 :: crest) w h)
            (collapseColumns
              ((c0 :: crest).length - max (width / minItemWidth) 1)
              (c0 :: crest)) =
          Item.row (collapseColumns
            ((c0 :: crest).length - max (width / minItemWidth) 1)
            (c0 :: crest)) w h) ∧
      (max (width / minItemWidth) 1 = 1 →
        promoteSingleChildRow (Item.row (c0 :: crest) w h)
            (collapseColumns
              ((c0 :: crest).length - max (width / minItemWidth) 1)
              (c0 :: crest)) = c0n) ∧
      firstStackItem? c0n = Option.some (Item.stack
        (scs ++ listComponents ((crest.drop (crest.length -
          ((c0 :: crest).length - max (width / minItemWidth) 1))).reverse))
        aidn sw sh) := by
  have hminW : 0 < minItemWidth := by
    rcases Nat.eq_zero_or_pos minItemWidth with hz | hp
    · rw [hz, Nat.mul_zero] at hover
      exact absurd hover (Nat.not_lt_zero width)
    · exact hp
  have hdivlt : width / minItemWidth < (c0 :: crest).length :=
    (Nat.div_lt_iff_lt_mul hminW).mpr hover
  have hlc : (c0 :: crest).length = crest.length + 1 := rfl
  have hfinal : max (width / minItemWidth) 1 ≤ crest.length := by
    rw [hlc] at hdivlt hcount
    omega
  have hn : (c0 :: crest).length - max (width / minItemWidth) 1 ≤
      crest.length := by
    rw [hlc]
    omega
  obtain ⟨c0n, aidn, hcol, hfsn⟩ :=
    collapseColumns_spec ((c0 :: crest).length - max (width / minItemWidth) 1)
      c0 crest scs aid sw sh hfs hn
  have hhas : listHasStack (Item.row (c0 :: crest) w h :: rest) = true := by
    have hr : firstStackItem? (Item.row (c0 :: crest) w h) =
        Option.some (Item.stack scs aid sw sh) := by
      show (match firstStackItem? c0 with
        | Option.some st => Option.some st
        | Option.none => firstStackList? crest) =
          Option.some (Item.stack scs aid sw sh)
      rw [hfs]
    show ((match firstStackItem? (Item.row (c0 :: crest) w h) with
      | Option.some st => Option.some st
      | Option.none => firstStackList? rest)).isSome = true
    rw [hr]
    rfl
  have hlenc : (collapseColumns
      ((c0 :: crest).length - max (width / minItemWidth) 1)
      (c0 :: crest)).length = max (width / minItemWidth) 1 := by
    rw [hcol]
    simp only [List.length_cons, List.length_take]
    rw [Nat.min_eq_left (Nat.sub_le _ _)]
    have hge : 1 ≤ max (width / minItemWidth) 1 := le_max_right _ _
    generalize hM : max (width / minItemWidth) 1 = M at hfinal hge ⊢
    omega
  refine ⟨c0n, aidn, ?_, hcol, hlenc, ?_, ?_, hfsn⟩
  · have hguard : (useResponsiveLayout ResponsiveMode.always false &&
        !false && (Item.row (c0 :: crest) w h).isRow) = true := rfl
    have h1 : ¬ ((Item.row (c0 :: crest) w h).childrenOf.length ≤ 1) := by
      show ¬ ((c0 :: crest).length ≤ 1)
      rw [hlc]
      omega
    have h2 : ¬ ((Item.row (c0 :: crest) w h).childrenOf.length *
        minItemWidth ≤ width) := by
      show ¬ ((c0 :: crest).length * minItemWidth ≤ width)
      omega
    have h3 : ¬ (listHasStack (Item.row (c0 :: crest) w h :: rest) = false) := by
      rw [hhas]
      exact fun hcontra => Bool.noConfusion hcontra
    simp only [adjustColumnsResponsive]
    rw [if_pos hguard, if_neg h1, if_neg h2, if_neg h3]
    rfl
  · intro htwo
    cases hsplit : crest.take (crest.length -
        ((c0 :: crest).length - max (width / minItemWidth) 1)) with
    | nil =>
      exfalso
      rw [hcol, hsplit] at hlenc
      simp only [List.length_cons, List.length_nil] at hlenc
      generalize hM : max (width / minItemWidth) 1 = M at htwo hlenc
      omega
    | cons y ys =>
      rw [hcol, hsplit]
      rfl
  · intro hone
    have hN : (c0 :: crest).length - max (width / minItemWidth) 1 =
        crest.length := by
      rw [hone, hlc]
      omega
    rw [hcol, hN, Nat.sub_self, List.take_zero]
    rfl

/-- A column of Scenario D: a single-tab stack. -/
def scenarioDColumn (i : ℕ) : Item :=
  Item.stack [Item.component i 50 50] (Option.some i) 25 100

/-- The four columns of Scenario D. -/
def scenarioDColumns : List Item :=
  [scenarioDColumn 1, scenarioDColumn 2, scenarioDColumn 3, scenarioDColumn 4]

/-- Witness for C6, Scenario D: minItemWidth 200, available width 500 and
a Row of 4 single-stack columns give finalColumnCount
max(floor(500 / 200), 1) = 2, and the pass moves the content of the 2
right-most columns into the first stack; and, at width 100 with 2
columns, finalColumnCount = 1 and the single surviving column is
promoted in the row's place. -/
theorem adjustColumnsResponsive_collapse_witness :
    firstStackItem? (scenarioDColumn 1) =
      Option.some (Item.stack [Item.component 1 50 50] (Option.some 1) 25 100) ∧
    2 ≤ scenarioDColumns.length ∧
    500 < scenarioDColumns.length * 200 ∧
    max (500 / 200) 1 = 2 ∧
    (∃ c0n aidn,
      adjustColumnsResponsive
          ⟨[Item.row scenarioDColumns 100 100], 500, 200,
            ResponsiveMode.always, false, false⟩ =
        Except.ok
          ⟨[promoteSingleChildRow (Item.row scenarioDColumns 100 100)
              (collapseColumns
                (scenarioDColumns.length - max (500 / 200) 1)
                scenarioDColumns)],
            500, 200, ResponsiveMode.always, false, false⟩ ∧
      collapseColumns (scenarioDColumns.length - max (500 / 200) 1)
          scenarioDColumns =
        c0n :: ([scenarioDColumn 2, scenarioDColumn 3, scenarioDColumn 4] :
            List Item).take
          (([scenarioDColumn 2, scenarioDColumn 3, scenarioDColumn 4] :
              List Item).length -
            (scenarioDColumns.length - max (500 / 200) 1)) ∧
      (collapseColumns (scenarioDColumns.length - max (500 / 200) 1)
          scenarioDColumns).length = max (500 / 200) 1 ∧
      (2 ≤ max (500 / 200) 1 →
        promoteSingleChildRow (Item.row scenarioDColumns 100 100)
            (collapseColumns (scenarioDColumns.length - max (500 / 200) 1)
              scenarioDColumns) =
          Item.row (collapseColumns
            (scenarioDColumns.length - max (500 / 200) 1)
            scenarioDColumns) 100 100) ∧
      (max (500 / 200) 1 = 1 →
        promoteSingleChildRow (Item.row scenarioDColumns 100 100)
            (collapseColumns (scenarioDColumns.length - max (500 / 200) 1)
              scenarioDColumns) = c0n) ∧
      firstStackItem? c0n = Option.some (Item.stack
        ([Item.component 1 50 50] ++ listComponents
          ((([scenarioDColumn 2, scenarioDColumn 3, scenarioDColumn 4] :
              List Item).drop
            (([scenarioDColumn 2, scenarioDColumn 3, scenarioDColumn 4] :
                List Item).length -
              (scenarioDColumns.length - max (500 / 200) 1))).reverse))
        aidn 25 100)) ∧
    adjustColumnsResponsive
        ⟨[Item.row [scenarioDColumn 1, scenarioDColumn 2] 100 100], 100, 200,
          ResponsiveMode.always, false, false⟩ =
      Except.ok
        ⟨[Item.stack [Item.component 1 50 50, Item.component 2 50 50]
            (Option.some 2) 25 100],
          100, 200, ResponsiveMode.always, false, false⟩ :=
  ⟨rfl, by decide, by decide, by decide,
    adjustColumnsResponsive_collapse [] 100 100 (scenarioDColumn 1)
      [scenarioDColumn 2, scenarioDColumn 3, scenarioDColumn 4]
      [Item.component 1 50 50] (Option.some 1) 25 100 500 200 false
      rfl (by decide) (by decide),
    rfl⟩

end GoldenLayout
